import Mathlib

/-!
Verification of the npm-package server (src/server.ts) against its
natural-language specification.  The definitions below are a shallow
embedding of the TypeScript source: each Lean definition mirrors one
function or constant of `src/server.ts`, with file-system state, HTTP
responses and the in-process cache made explicit.  Text rendering of
reports (which the specification excludes from the core) is abstracted
only where a claim does not depend on it.
-/

namespace NpmServer

/-! ### String primitives

Structural (char-list) implementations of the JavaScript string
operations the source uses — `startsWith`, `toLowerCase`, `trim`,
splitting a relative path on the separator, and per-character
replacement — so that every definition in this file evaluates by
reduction on concrete inputs. -/

/-- Tests whether the first char list is a prefix of the second. -/
def isPrefixOfChars : List Char → List Char → Bool
  | [], _ => true
  | _ :: _, [] => false
  | a :: as, b :: bs => a = b && isPrefixOfChars as bs

/-- Embeds JS `s.startsWith(pre)`. -/
def strStartsWith (s pre : String) : Bool :=
  isPrefixOfChars pre.toList s.toList

/-- ASCII lower-casing of one character. -/
def charToLower (c : Char) : Char :=
  if 'A' ≤ c && c ≤ 'Z' then Char.ofNat (c.toNat + 32) else c

/-- Embeds JS `s.toLowerCase()` (the extensions compared against are
ASCII). -/
def strToLower (s : String) : String :=
  String.mk (s.toList.map charToLower)

/-- Embeds JS `s.trim()`: strip whitespace from both ends. -/
def strTrim (s : String) : String :=
  String.mk
    (((s.toList.dropWhile Char.isWhitespace).reverse.dropWhile
        Char.isWhitespace).reverse)

/-- Splits a char list on the path separator, accumulating the current
segment in reverse. -/
def splitSlashAux : List Char → List Char → List String
  | [], acc => [String.mk acc.reverse]
  | c :: cs, acc =>
      if c = '/' then String.mk acc.reverse :: splitSlashAux cs []
      else splitSlashAux cs (c :: acc)

/-- Splits a relative path into its separator-delimited segments. -/
def splitOnSlash (s : String) : List String :=
  splitSlashAux s.toList []

/-! ### File-system model

A directory tree as seen by the walkers.  A file's content is `none`
when `readFileSync` would fail on it (binary/permission error); a
directory carries a flag saying whether `readdirSync` succeeds on it.
Paths are lists of segments. -/

inductive FsEntry where
  | file (name : String) (content : Option String)
  | dir (name : String) (readable : Bool) (children : List FsEntry)

/-- Embeds `shouldSkipDirectory`'s skip list (server.ts line 814). -/
def skipDirs : List String :=
  [".git", ".svn", ".hg", "node_modules", ".DS_Store", "__pycache__"]

/-- Embeds `shouldSkipDirectory` (server.ts lines 813-816). -/
def shouldSkipDirectory (dirName : String) : Bool :=
  strStartsWith dirName "." || skipDirs.contains dirName

/-- Embeds the `codeExtensions` field (server.ts line 120). -/
def codeExtensions : List String :=
  [".js", ".ts", ".jsx", ".tsx", ".mjs", ".cjs", ".json"]

/-- Embeds Node's `path.extname` on a base name: the substring starting at
the last dot, or empty when there is no dot or the only dot is at index 0
(a hidden file such as `.gitignore` has no extension). -/
def extname (fileName : String) : String :=
  let cs := fileName.toList
  let tail := cs.reverse.takeWhile (fun c => c ≠ '.')
  if tail.length = cs.length then ""
  else if cs.length - tail.length - 1 = 0 then ""
  else String.mk ('.' :: tail.reverse)

/-- Embeds `isCodeFile` (server.ts lines 818-821). -/
def isCodeFile (fileName : String) : Bool :=
  codeExtensions.contains (strToLower (extname fileName))

/-! ### TreeWalker: `getAllFiles` (server.ts lines 782-811)

The flat walk used by `listPackageFiles`.  It descends into a
subdirectory iff the directory's name does not start with a dot
(`!item.startsWith('.')`) and the directory can be read; files are
collected in traversal order.  Paths are returned relative to the
walked root (the caller `listPackageFiles` relativizes them the same
way). -/

mutual

def allFilesEntry : FsEntry → List (List String)
  | .file n _ => [[n]]
  | .dir n r ch =>
      if !(strStartsWith n ".") && r then
        (allFilesList ch).map (fun p => n :: p)
      else []

def allFilesList : List FsEntry → List (List String)
  | [] => []
  | e :: es => allFilesEntry e ++ allFilesList es

end

/-- Embeds `getAllFiles` (server.ts lines 782-811): the walk starting at
the extracted root's children. -/
def getAllFiles (root : List FsEntry) : List (List String) :=
  allFilesList root

/-! ### TreeWalker: `findCodeFiles` (server.ts lines 743-780)

The code-file walk used by `getAllCodeFiles`.  It descends into a
subdirectory iff `shouldSkipDirectory` rejects it and the directory can
be read; it keeps files whose extension is in the allow-list, skipping
files whose content cannot be read. -/

mutual

def codeFilesEntry : FsEntry → List (List String × String)
  | .file n c =>
      if isCodeFile n then
        match c with
        | some t => [([n], t)]
        | none => []
      else []
  | .dir n r ch =>
      if !(shouldSkipDirectory n) && r then
        (codeFilesList ch).map (fun pc => (n :: pc.1, pc.2))
      else []

def codeFilesList : List FsEntry → List (List String × String)
  | [] => []
  | e :: es => codeFilesEntry e ++ codeFilesList es

end

/-- Embeds `findCodeFiles` (server.ts lines 743-780). -/
def findCodeFiles (root : List FsEntry) : List (List String × String) :=
  codeFilesList root

/-! ### CodeSelector: `getAllCodeFiles` (server.ts lines 625-652)

The report built for a whole-package code request.  The source renders a
text block; the claims concern its content: the number of candidate
code files found (`Code files found: N`), the first `maxFiles` of them
(`codeFiles.slice(0, maxFiles)`), and the `... and K more files` marker
emitted when the cap is exceeded.  We record exactly those pieces. -/

/-- Embeds the `maxFiles` cap (server.ts line 632). -/
def maxFiles : Nat := 20

structure CodeFilesReport where
  totalCandidateCount : Nat
  shown : List (List String × String)
  moreFiles : Option Nat

/-- Embeds `getAllCodeFiles` (server.ts lines 625-652). -/
def getAllCodeFiles (root : List FsEntry) : CodeFilesReport :=
  let codeFiles := findCodeFiles root
  { totalCandidateCount := codeFiles.length
    shown := codeFiles.take maxFiles
    moreFiles :=
      if maxFiles < codeFiles.length then some (codeFiles.length - maxFiles)
      else none }

/-! ### RegistryClient: `fetchPackageInfo` (server.ts lines 654-692)

The metadata endpoint's JSON body, as the source reads it.  A body that
`JSON.parse` rejects is modelled as `none`.  JavaScript truthiness
matters: `!packageInfo.dist.tarball` is true for a missing *or empty*
tarball string. -/

/-- Truthiness of an optional JS string: `undefined` and the empty
string are falsy. -/
def truthyStr : Option String → Bool
  | none => false
  | some s => s ≠ ""

/-- An npm author: either a plain string or a `{name, email}` object. -/
inductive Author where
  | str (s : String)
  | obj (name : String) (email : Option String)
  deriving Repr, DecidableEq

structure Dist where
  tarball : Option String
  shasum : Option String
  deriving Repr, DecidableEq

/-- Embeds the `PackageInfo` interface (server.ts lines 28-48), with
every optional field explicit.  `dependencies`/`devDependencies` are the
entry lists of the JSON records (JS object keys are distinct). -/
structure RawPackageInfo where
  name : String
  version : String
  dist : Option Dist
  description : Option String
  main : Option String
  types : Option String
  keywords : Option (List String)
  author : Option Author
  license : Option String
  homepage : Option String
  repositoryUrl : Option String
  dependencies : Option (List (String × String))
  devDependencies : Option (List (String × String))
  deriving Repr, DecidableEq

inductive FetchError where
  | invalidJson
  | invalidPackageInfo
  deriving Repr, DecidableEq

/-- Embeds the body handling of `fetchPackageInfo` (server.ts lines
667-680): parse the body, then reject when `!packageInfo.dist ||
!packageInfo.dist.tarball`.  The network/timeout failure modes of lines
683-690 reject the promise before any body exists and are outside the
claims about body validation. -/
def fetchPackageInfo (body : Option RawPackageInfo) :
    Except FetchError RawPackageInfo :=
  match body with
  | none => .error .invalidJson
  | some pkgInfo =>
      match pkgInfo.dist with
      | none => .error .invalidPackageInfo
      | some d =>
          if truthyStr d.tarball then .ok pkgInfo
          else .error .invalidPackageInfo

/-! ### `getPackageInfo` normalization (server.ts lines 559-598)

The `info` record built at lines 569-584 from a fetched
`RawPackageInfo`.  Each `x || fallback` is JS truthy-or: an absent or
empty string falls back. -/

/-- JS `s || fallback` on an optional string field. -/
def jsOrStr (v : Option String) (fallback : String) : String :=
  match v with
  | none => fallback
  | some s => if s = "" then fallback else s

/-- JS `author || 'Not specified'`: an object author is always truthy,
an empty string author is falsy. -/
def normAuthor (v : Option Author) : Author :=
  match v with
  | none => .str "Not specified"
  | some (.str s) => if s = "" then .str "Not specified" else .str s
  | some a => a

structure NormalizedInfo where
  name : String
  version : String
  description : String
  main : String
  types : String
  keywords : List String
  author : Author
  license : String
  homepage : String
  repository : String
  tarball : Option String
  shasum : Option String
  dependencies : Nat
  devDependencies : Nat
  deriving Repr, DecidableEq

/-- Embeds the `info` record of `getPackageInfo` (server.ts lines
569-584).  The function runs only after `fetchPackageInfo` succeeded,
so `dist` is present; we return `none` in the unreachable missing-dist
case.  `keywords || []` keeps an empty array (arrays are truthy);
`repository?.url` collapses a missing repository to `undefined`. -/
def getPackageInfoRecord (pkgInfo : RawPackageInfo) : Option NormalizedInfo :=
  match pkgInfo.dist with
  | none => none
  | some d => some
      { name := pkgInfo.name
        version := pkgInfo.version
        description := jsOrStr pkgInfo.description "No description available"
        main := jsOrStr pkgInfo.main "Not specified"
        types := jsOrStr pkgInfo.types "Not specified"
        keywords := pkgInfo.keywords.getD []
        author := normAuthor pkgInfo.author
        license := jsOrStr pkgInfo.license "Not specified"
        homepage := jsOrStr pkgInfo.homepage "Not specified"
        repository := jsOrStr pkgInfo.repositoryUrl "Not specified"
        tarball := d.tarball
        shasum := d.shasum
        dependencies := (pkgInfo.dependencies.getD []).length
        devDependencies := (pkgInfo.devDependencies.getD []).length }

/-! ### `getSpecificFile` (server.ts lines 600-623)

Paths are segment lists.  `path.join(extractedPath, filePath)` splits
the relative path on separators and normalizes `.` and `..` segments
against the absolute base, which is what lets `..` climb out of the
sandbox root.  The file system is a partial map from absolute paths to
nodes; a file node's content is `none` when `readFileSync` fails. -/

/-- One step of Node `path.join` normalization: empty and `.` segments
vanish, `..` pops the last segment (at the root of an absolute path it
stays put), anything else is appended. -/
def pushSeg (acc : List String) (s : String) : List String :=
  if s = "" || s = "." then acc
  else if s = ".." then acc.dropLast
  else acc ++ [s]

/-- Embeds `path.join(extractedPath, filePath)` (server.ts line 601). -/
def joinPath (root : List String) (filePath : String) : List String :=
  (splitOnSlash filePath).foldl pushSeg root

inductive FsNode where
  | fileNode (content : Option String)
  | dirNode
  deriving Repr, DecidableEq

def FileSys := List String → Option FsNode

inductive GetFileError where
  | notFound
  | notAFile
  | readError
  deriving Repr, DecidableEq

/-- Embeds `getSpecificFile` (server.ts lines 600-623):
`existsSync` fails → not-found; `statSync(...).isFile()` false →
not-a-file; `readFileSync` fails → read error; otherwise the file's
content is returned (its textual wrapping `File: ...` is formatting the
spec excludes). -/
def getSpecificFile (fsys : FileSys) (extractedPath : List String)
    (filePath : String) : Except GetFileError String :=
  let fullFilePath := joinPath extractedPath filePath
  match fsys fullFilePath with
  | none => .error .notFound
  | some .dirNode => .error .notAFile
  | some (.fileNode none) => .error .readError
  | some (.fileNode (some content)) => .ok content

/-! ### ArchiveFetcher: `downloadAndExtract` (server.ts lines 694-741)

The temp-directory state maps a sandbox directory name to the extracted
contents sitting there, `none` when no such directory exists.  An
archive is a list of entry paths (segment lists); `tar.extract` with
`strip: 1` drops each entry's leading segment.  A successful run
removes any existing directory recursively (lines 699-701), recreates
it, and unpacks the archive into it, so the resulting state carries
exactly the new archive's stripped entries under the sanitized name.
Network/decompression failures reject before resolving and are outside
the idempotence claims, which quantify over successful runs. -/

/-- Embeds `packageName.replace(/[@\/]/g, '_')` (server.ts line 695). -/
def sanitizedName (packageName : String) : String :=
  String.mk (packageName.toList.map (fun c => if c = '@' || c = '/' then '_' else c))

/-- Embeds `strip: 1` (server.ts line 714). -/
def stripOneSegment (entry : List String) : List String :=
  entry.drop 1

/-- Embeds the unpacking of one archive under `strip: 1`. -/
def extractArchive (entries : List (List String)) : List (List String) :=
  entries.map stripOneSegment

def TempDir := String → Option (List (List String))

/-- Embeds a successful `downloadAndExtract` run (server.ts lines
694-741) as its effect on the temp-directory state. -/
def downloadAndExtract (tmp : TempDir) (packageName : String)
    (entries : List (List String)) : TempDir :=
  fun k =>
    if k = sanitizedName packageName then some (extractArchive entries)
    else tmp k

/-! ### RegistryClient: `searchNpmPackages` (server.ts lines 299-367)

Argument validation runs before `performPackageSearch`; we count the
network calls the handler makes.  A caller-supplied `query` can be
absent or a non-string JSON value. -/

inductive JsValue where
  | vstr (s : String)
  | vnum (n : Int)
  | vbool (b : Bool)
  | vnull
  deriving Repr, DecidableEq

structure SearchPackagesArgs where
  query : Option JsValue
  size : Option Int
  fromIdx : Option Int
  deriving Repr, DecidableEq

/-- Embeds `!query || typeof query !== 'string' ||
query.trim().length === 0` (server.ts line 302): a missing query and a
non-string query are invalid; for a string, `!query` catches `""` and
the trim check catches whitespace-only strings, together exactly the
strings that trim to empty. -/
def queryInvalid : Option JsValue → Bool
  | none => true
  | some (.vstr s) => strTrim s = ""
  | some _ => true

structure SearchHit where
  name : String
  version : String
  description : Option String
  keywords : Option (List String)
  author : Option Author
  date : String
  npmLink : String
  homepage : Option String
  repositoryLink : Option String
  deriving Repr, DecidableEq

structure SearchResponseM where
  objects : List SearchHit
  total : Nat
  deriving Repr, DecidableEq

inductive SearchError where
  | invalidParams
  | internalError
  deriving Repr, DecidableEq

/-- Embeds `searchNpmPackages` (server.ts lines 299-367).  `net` is the
outcome `performPackageSearch` would produce if called; the second
component counts how many times it is called.  On success the handler
formats the response into text (formatting the spec excludes); we
return the response itself.  A failed search is caught and re-raised as
an internal error (lines 361-366). -/
def searchNpmPackages (args : SearchPackagesArgs)
    (net : Except String SearchResponseM) :
    Except SearchError SearchResponseM × Nat :=
  if queryInvalid args.query then (.error .invalidParams, 0)
  else if args.size.getD 20 > 250 then (.error .invalidParams, 0)
  else
    match net with
    | .ok r => (.ok r, 1)
    | .error _ => (.error .internalError, 1)

/-! ### PopularityCache: `getPopularPackages` (server.ts lines 369-462)

The cache lives in two fields of the server object:
`popularPackagesCache : string | null` and `popularPackagesCacheTime`.
The guard at line 372 is `this.popularPackagesCache &&
(now - this.popularPackagesCacheTime) < this.CACHE_DURATION`.  On a
miss, the first 5 of the 10 seed queries are searched (a failed seed is
logged and skipped), hits are deduplicated by name in arrival order,
sorted by the heuristic score (stable, descending — the JS engine's
sort is stable), the top 50 are formatted into the digest, and the
digest is stored with the current timestamp.

Timestamps are naturals; `now - cacheTime` uses truncated subtraction,
which agrees with the JS guard on every comparison (a negative JS
difference and a truncated 0 are both below the duration).  The two
date renderings (`toISOString`, `toLocaleDateString`) are abstracted as
the decimal timestamp and the raw date string — no claim depends on
their exact text. -/

/-- Embeds `CACHE_DURATION` (server.ts line 124). -/
def CACHE_DURATION : Nat := 24 * 60 * 60 * 1000

/-- Embeds `popularQueries` (server.ts lines 382-385). -/
def popularQueries : List String :=
  ["react", "lodash", "express", "typescript", "webpack",
   "eslint", "babel", "prettier", "jest", "axios"]

/-- Embeds the author-name extraction `typeof pkg.author === 'string'
? pkg.author : pkg.author?.name` (server.ts line 428). -/
def authorName : Option Author → Option String
  | none => none
  | some (.str s) => some s
  | some (.obj n _) => some n

/-- Embeds the seed-accumulation loop (server.ts lines 391-403): hits
from successful seed searches are kept in arrival order, dropping any
whose name was already collected; a failed seed contributes nothing. -/
def collectHits (results : List (Except String SearchResponseM)) :
    List SearchHit :=
  results.foldl
    (fun acc r =>
      match r with
      | .ok resp =>
          resp.objects.foldl
            (fun acc2 h =>
              if acc2.any (fun x => x.name = h.name) then acc2
              else acc2 ++ [h])
            acc
      | .error _ => acc)
    []

/-- Embeds the ranking heuristic (server.ts lines 406-411), scaled by
10 to stay in the naturals: `(name.length < 15 ? 1 : 0) +
(description ? 1 : 0) + (keywords?.length || 0) / 10`. -/
def heuristicScore10 (h : SearchHit) : Nat :=
  (if h.name.length < 15 then 10 else 0) +
  (if truthyStr h.description then 10 else 0) +
  (h.keywords.getD []).length

/-- Embeds one `## i. name` block of the digest (server.ts lines
418-444). -/
def formatPopularHit (i : Nat) (pkg : SearchHit) : String :=
  "## " ++ toString (i + 1) ++ ". " ++ pkg.name ++ "\n" ++
  "**Version:** " ++ pkg.version ++ "\n" ++
  "**Description:** " ++ jsOrStr pkg.description "No description available" ++ "\n" ++
  (match pkg.keywords with
   | some ks =>
       if ks.length > 0 then
         "**Keywords:** " ++ String.intercalate ", " (ks.take 5) ++ "\n"
       else ""
   | none => "") ++
  (match authorName pkg.author with
   | some a => if a ≠ "" then "**Author:** " ++ a ++ "\n" else ""
   | none => "") ++
  "**NPM:** " ++ pkg.npmLink ++ "\n" ++
  (if truthyStr pkg.homepage then
     "**Homepage:** " ++ pkg.homepage.getD "" ++ "\n" else "") ++
  (if truthyStr pkg.repositoryLink then
     "**Repository:** " ++ pkg.repositoryLink.getD "" ++ "\n" else "") ++
  "**Last Updated:** " ++ pkg.date ++ "\n\n"

/-- Embeds the digest text built at lines 413-444. -/
def buildDigest (now : Nat) (topPackages : List SearchHit) : String :=
  "# 🔥 Most Popular NPM Packages\n\n" ++
  ("Updated: " ++ toString now ++ "\n\n" ++
   String.join (topPackages.enum.map (fun p => formatPopularHit p.1 p.2)))

/-- Embeds the cache-miss recomputation (server.ts lines 380-444):
search the first 5 seeds, deduplicate, rank (stable descending sort by
the heuristic), keep the top 50 and format. -/
def recomputePopularDigest (now : Nat)
    (net : String → Except String SearchResponseM) : String :=
  let results := (popularQueries.take 5).map net
  let packageDetails := collectHits results
  let sorted := packageDetails.mergeSort
    (fun a b => decide (heuristicScore10 b ≤ heuristicScore10 a))
  buildDigest now (sorted.take 50)

structure CacheState where
  popularPackagesCache : Option String
  popularPackagesCacheTime : Nat
  deriving Repr, DecidableEq

structure PopularOutcome where
  text : String
  state : CacheState
  searchCalls : Nat
  deriving Repr, DecidableEq

/-- Embeds `getPopularPackages` (server.ts lines 369-462): serve the
cached digest inside the TTL window with no search call, otherwise
recompute the digest with 5 seed searches and store it with the current
timestamp. -/
def getPopularPackages (st : CacheState) (now : Nat)
    (net : String → Except String SearchResponseM) : PopularOutcome :=
  if truthyStr st.popularPackagesCache = true ∧
      now - st.popularPackagesCacheTime < CACHE_DURATION then
    { text := st.popularPackagesCache.getD ""
      state := st
      searchCalls := 0 }
  else
    let digest := recomputePopularDigest now net
    { text := digest
      state := { popularPackagesCache := some digest
                 popularPackagesCacheTime := now }
      searchCalls := (popularQueries.take 5).length }

/-! ### Concrete fixtures used by the theorems below -/

/-- An extracted tree holding `node_modules/lib.js` and `index.js`. -/
def treeNodeModules : List FsEntry :=
  [.dir "node_modules" true [.file "lib.js" (some "x")],
   .file "index.js" (some "y")]

/-- An extracted tree with 500 code-file candidates. -/
def tree500 : List FsEntry :=
  List.replicate 500 (FsEntry.file "index.js" (some "module.exports = 1;"))

/-- A parsed metadata body with a tarball URL but no shasum. -/
def pkgNoShasum : RawPackageInfo :=
  { name := "left-pad"
    version := "1.3.0"
    dist := some { tarball := some "https://registry.npmjs.org/left-pad/-/left-pad-1.3.0.tgz"
                   shasum := none }
    description := none, main := none, types := none, keywords := none
    author := none, license := none, homepage := none, repositoryUrl := none
    dependencies := none, devDependencies := none }

/-- A complete metadata body with every optional descriptive field
absent. -/
def pkgBare : RawPackageInfo :=
  { name := "tiny"
    version := "0.0.1"
    dist := some { tarball := some "https://registry.npmjs.org/tiny/-/tiny-0.0.1.tgz"
                   shasum := some "0123456789abcdef" }
    description := none, main := none, types := none, keywords := none
    author := none, license := none, homepage := none, repositoryUrl := none
    dependencies := none, devDependencies := none }

/-- A file system whose sandbox root `r` holds one directory entry
`d`. -/
def fsysWithDir : FileSys :=
  fun p => if p = ["r", "d"] then some FsNode.dirNode else none

/-- A file system with a sandbox at `tmp/pkg_x` and a readable file
`tmp/outside.txt` one level above it. -/
def fsysEscape : FileSys :=
  fun p =>
    if p = ["tmp", "pkg_x", "index.js"] then some (FsNode.fileNode (some "inside"))
    else if p = ["tmp", "outside.txt"] then some (FsNode.fileNode (some "secret"))
    else none

/-- A registry that refuses every search. -/
def netDown : String → Except String SearchResponseM :=
  fun _ => .error "network unavailable"

/-- A cache state holding a digest stored at time 0. -/
def freshState : CacheState :=
  { popularPackagesCache := some (buildDigest 0 [])
    popularPackagesCacheTime := 0 }

end NpmServer

open NpmServer

/-! ## Helper lemmas -/

/-- Membership in `dropLast` of a cons splits into the head or the
tail's `dropLast`. -/
theorem mem_dropLast_cons {d n : String} {q : List String}
    (hd : d ∈ (n :: q).dropLast) : d = n ∨ d ∈ q.dropLast := by
  cases q with
  | nil => simp at hd
  | cons x xs =>
      rw [List.dropLast_cons₂] at hd
      exact List.mem_cons.mp hd

mutual

/-- Every path produced by the flat walk on one entry has no hidden
ancestor directory. -/
theorem allFilesEntry_no_hidden_ancestor :
    ∀ (e : FsEntry), ∀ p ∈ allFilesEntry e, ∀ d ∈ p.dropLast,
      strStartsWith d "." = false
  | .file n c => by
      intro p hp d hd
      simp only [allFilesEntry, List.mem_singleton] at hp
      subst hp
      simp at hd
  | .dir n r ch => by
      intro p hp d hd
      simp only [allFilesEntry] at hp
      by_cases hcond : (!(strStartsWith n ".") && r) = true
      · rw [if_pos hcond] at hp
        obtain ⟨q, hq, rfl⟩ := List.mem_map.mp hp
        rcases mem_dropLast_cons hd with hdn | hdq
        · have hsplit : strStartsWith n "." = false ∧ r = true := by
            simpa using hcond
          rw [hdn]
          exact hsplit.1
        · exact allFilesList_no_hidden_ancestor ch q hq d hdq
      · rw [if_neg hcond] at hp
        simp at hp

/-- Every path produced by the flat walk on a child list has no hidden
ancestor directory. -/
theorem allFilesList_no_hidden_ancestor :
    ∀ (es : List FsEntry), ∀ p ∈ allFilesList es, ∀ d ∈ p.dropLast,
      strStartsWith d "." = false
  | [] => by
      intro p hp
      simp [allFilesList] at hp
  | e :: es => by
      intro p hp d hd
      rw [allFilesList] at hp
      rcases List.mem_append.mp hp with h | h
      · exact allFilesEntry_no_hidden_ancestor e p h d hd
      · exact allFilesList_no_hidden_ancestor es p h d hd

end

/-- The digest text always begins with the fixed header, so it is never
the empty string (and in particular is truthy in the cache guard). -/
theorem buildDigest_ne_empty (n : Nat) (tops : List SearchHit) :
    buildDigest n tops ≠ "" := by
  intro h
  have hlen := congrArg String.length h
  rw [buildDigest, String.length_append] at hlen
  have hhead : 0 < ("# 🔥 Most Popular NPM Packages\n\n" : String).length := by
    decide
  have hnil : ("" : String).length = 0 := rfl
  rw [hnil] at hlen
  omega

/-- A root of `n` identical readable `index.js` files yields exactly
`n` code-file candidates. -/
theorem codeFilesList_replicate_length (n : Nat) :
    (codeFilesList
      (List.replicate n (FsEntry.file "index.js" (some "module.exports = 1;")))).length
      = n := by
  induction n with
  | zero => rfl
  | succ k ih =>
      rw [List.replicate_succ, codeFilesList, List.length_append, ih]
      have hone :
          (codeFilesEntry (FsEntry.file "index.js" (some "module.exports = 1;"))).length
            = 1 := by
        simp only [codeFilesEntry]
        decide
      rw [hone]
      omega

/-! ## Claim C1 -/

/-- Claim C1, as stated, is false: the flat listing `getAllFiles` skips
only dot-directories, so a path under the skip-set directory
`node_modules` (which does not start with a dot) is returned.  The tree
holding `node_modules/lib.js` and `index.js` lists both files, not only
`index.js`. -/
theorem C1_counterexample :
    getAllFiles treeNodeModules = [["node_modules", "lib.js"], ["index.js"]] ∧
    "node_modules" ∈ skipDirs := by
  constructor
  · simp only [NpmServer.getAllFiles, treeNodeModules, allFilesList, allFilesEntry]
    decide
  · decide

/-- Claim C1 (amended): for every extracted root, the flat file listing
`getAllFiles` never returns a path that has an ancestor directory whose
base name starts with the hidden-file marker character; the fixed skip
set beyond that applies only to the code-file walk, not to the flat
listing. -/
theorem C1_flat_listing_skips_only_hidden (es : List FsEntry)
    (p : List String) (hp : p ∈ getAllFiles es)
    (d : String) (hd : d ∈ p.dropLast) :
    strStartsWith d "." = false :=
  allFilesList_no_hidden_ancestor es p hp d hd

/-- Witness for the amended claim C1 at the concrete two-file tree. -/
theorem C1_flat_listing_skips_only_hidden_witness :
    strStartsWith "node_modules" "." = false :=
  C1_flat_listing_skips_only_hidden treeNodeModules
    ["node_modules", "lib.js"]
    (by simp only [NpmServer.getAllFiles, treeNodeModules, allFilesList, allFilesEntry]
        decide)
    "node_modules" (by decide)

/-! ## Claim C2 -/

/-- Claim C2, as stated, is false: a parsed metadata body that carries
a tarball URL but no shasum is resolved by `fetchPackageInfo`, not
rejected — only `dist` and `dist.tarball` are validated. -/
theorem C2_counterexample :
    pkgNoShasum.dist.map Dist.shasum = some none ∧
    fetchPackageInfo (some pkgNoShasum) = Except.ok pkgNoShasum := by
  constructor
  · rfl
  · rfl

/-- Claim C2 (amended): `fetchPackageInfo` fails with an
invalid-response error exactly when the body cannot be parsed as JSON
or lacks a truthy archive URL (missing `dist`, or missing or empty
`tarball`); the checksum is never checked, so a body with an archive
URL resolves even without a shasum. -/
theorem C2_metadata_validation (body : Option RawPackageInfo) :
    ((∃ e, fetchPackageInfo body = Except.error e) ↔
      body = none ∨
        ∃ p, body = some p ∧
          (p.dist = none ∨ ∃ d, p.dist = some d ∧ truthyStr d.tarball = false)) ∧
    (∀ p d, body = some p → p.dist = some d → truthyStr d.tarball = true →
      fetchPackageInfo body = Except.ok p) := by
  constructor
  · constructor
    · intro ⟨e, he⟩
      cases body with
      | none => exact Or.inl rfl
      | some p =>
          refine Or.inr ⟨p, rfl, ?_⟩
          cases hdist : p.dist with
          | none => exact Or.inl rfl
          | some d =>
              refine Or.inr ⟨d, rfl, ?_⟩
              by_contra hne
              have htr : truthyStr d.tarball = true := by
                cases htb : truthyStr d.tarball
                · exact absurd htb hne
                · rfl
              rw [fetchPackageInfo] at he
              simp only [hdist] at he
              rw [if_pos htr] at he
              exact Except.noConfusion he
    · intro h
      rcases h with h | ⟨p, hp, hd⟩
      · exact ⟨FetchError.invalidJson, by rw [h]; rfl⟩
      · subst hp
        rcases hd with hd | ⟨d, hd, htb⟩
        · exact ⟨FetchError.invalidPackageInfo, by
            rw [fetchPackageInfo]; simp only [hd]⟩
        · exact ⟨FetchError.invalidPackageInfo, by
            rw [fetchPackageInfo]; simp only [hd]; rw [if_neg (by simp [htb])]⟩
  · intro p d hp hd htb
    subst hp
    rw [fetchPackageInfo]
    simp only [hd]
    rw [if_pos htb]

/-- Witness for the amended claim C2: the shasum-less body resolves. -/
theorem C2_metadata_validation_witness :
    fetchPackageInfo (some pkgNoShasum) = Except.ok pkgNoShasum :=
  (C2_metadata_validation (some pkgNoShasum)).2 pkgNoShasum
    ⟨some "https://registry.npmjs.org/left-pad/-/left-pad-1.3.0.tgz", none⟩
    rfl rfl rfl

/-! ## Claim C3 -/

/-- Claim C3: `getAllCodeFiles` shows at most the 20-file cap, in
traversal order, reports the true total candidate count, and when the
cap is exceeded reports the excess count as the more-files marker. -/
theorem C3_code_file_cap (root : List FsEntry) :
    (getAllCodeFiles root).shown.length ≤ maxFiles ∧
    (getAllCodeFiles root).shown.length =
      min maxFiles (getAllCodeFiles root).totalCandidateCount ∧
    (getAllCodeFiles root).totalCandidateCount = (findCodeFiles root).length ∧
    (getAllCodeFiles root).shown = (findCodeFiles root).take maxFiles ∧
    (maxFiles < (getAllCodeFiles root).totalCandidateCount →
      (getAllCodeFiles root).moreFiles =
        some ((getAllCodeFiles root).totalCandidateCount - maxFiles)) := by
  refine ⟨?_, ?_, rfl, rfl, ?_⟩
  · simp [getAllCodeFiles]
  · simp [getAllCodeFiles]
  · intro hlt
    simp only [getAllCodeFiles] at hlt ⊢
    rw [if_pos hlt]

/-- Witness for claim C3 at a tree with 500 candidates: exactly 20
files are shown, the reported total is 500 and the excess is 480. -/
theorem C3_code_file_cap_witness :
    (getAllCodeFiles tree500).shown.length = 20 ∧
    (getAllCodeFiles tree500).totalCandidateCount = 500 ∧
    (getAllCodeFiles tree500).moreFiles = some 480 := by
  have h := C3_code_file_cap tree500
  have h500 : (findCodeFiles tree500).length = 500 :=
    codeFilesList_replicate_length 500
  have htot : (getAllCodeFiles tree500).totalCandidateCount = 500 := by
    rw [h.2.2.1, h500]
  refine ⟨?_, htot, ?_⟩
  · rw [h.2.1, htot, maxFiles]
    decide
  · have := h.2.2.2.2 (by rw [htot, maxFiles]; omega)
    rw [htot, maxFiles] at this
    exact this

/-! ## Claim C4 -/

/-- Claim C4: a search call whose query is missing, not a string, or
trims to empty, or whose size exceeds 250, fails with invalid-params
before `performPackageSearch` is invoked — zero network calls. -/
theorem C4_search_validation (args : SearchPackagesArgs)
    (net : Except String SearchResponseM)
    (h : args.query = none ∨
         (∃ v, args.query = some v ∧ ∀ s, v ≠ JsValue.vstr s) ∨
         (∃ s, args.query = some (JsValue.vstr s) ∧ strTrim s = "") ∨
         args.size.getD 20 > 250) :
    (searchNpmPackages args net).1 = Except.error SearchError.invalidParams ∧
    (searchNpmPackages args net).2 = 0 := by
  by_cases hq : queryInvalid args.query = true
  · rw [searchNpmPackages.eq_def, if_pos hq]
    exact ⟨rfl, rfl⟩
  · have hsize : args.size.getD 20 > 250 := by
      rcases h with h | ⟨v, hv, hns⟩ | ⟨s, hs, ht⟩ | hsize
      · exact absurd (by rw [h]; rfl) hq
      · cases v with
        | vstr s => exact absurd rfl (hns s)
        | vnum m => exact absurd (by rw [hv]; rfl) hq
        | vbool b => exact absurd (by rw [hv]; rfl) hq
        | vnull => exact absurd (by rw [hv]; rfl) hq
      · exact absurd (by rw [hs]; simp [queryInvalid, ht]) hq
      · exact hsize
    rw [searchNpmPackages.eq_def, if_neg hq, if_pos hsize]
    exact ⟨rfl, rfl⟩

/-- Witness for claim C4: `search` with size 300 and a valid query
fails invalid-params with zero network calls. -/
theorem C4_search_validation_witness :
    (searchNpmPackages
        { query := some (JsValue.vstr "react"), size := some 300, fromIdx := none }
        (Except.ok { objects := [], total := 0 })).1 =
      Except.error SearchError.invalidParams ∧
    (searchNpmPackages
        { query := some (JsValue.vstr "react"), size := some 300, fromIdx := none }
        (Except.ok { objects := [], total := 0 })).2 = 0 :=
  C4_search_validation _ _ (Or.inr (Or.inr (Or.inr (by decide))))

/-! ## Claim C5 -/

/-- Claim C5: with a stored digest younger than the 24-hour TTL,
`getPopularPackages` returns the cached digest text byte-identical to
what was stored, performs zero search calls and leaves the state
unchanged; when the entry is absent or at least TTL old, the digest is
recomputed (5 seed searches) and stored with the current timestamp. -/
theorem C5_popular_cache (st : CacheState) (now : Nat)
    (net : String → Except String SearchResponseM) :
    (∀ t n0 hs, st.popularPackagesCache = some t → t = buildDigest n0 hs →
      now - st.popularPackagesCacheTime < CACHE_DURATION →
      getPopularPackages st now net =
        { text := t, state := st, searchCalls := 0 }) ∧
    ((st.popularPackagesCache = none ∨
        CACHE_DURATION ≤ now - st.popularPackagesCacheTime) →
      getPopularPackages st now net =
        { text := recomputePopularDigest now net
          state := { popularPackagesCache := some (recomputePopularDigest now net)
                     popularPackagesCacheTime := now }
          searchCalls := (popularQueries.take 5).length }) := by
  constructor
  · intro t n0 hs hc hdig hfresh
    have hne : t ≠ "" := hdig ▸ buildDigest_ne_empty n0 hs
    have htruthy : truthyStr st.popularPackagesCache = true := by
      rw [hc]
      simpa [truthyStr] using hne
    rw [getPopularPackages.eq_def, if_pos ⟨htruthy, hfresh⟩, hc]
    rfl
  · intro hstale
    have hcond : ¬(truthyStr st.popularPackagesCache = true ∧
        now - st.popularPackagesCacheTime < CACHE_DURATION) := by
      rcases hstale with h | h
      · rw [h]
        rintro ⟨htr, _⟩
        exact Bool.noConfusion htr
      · rintro ⟨_, hlt⟩
        omega
    rw [getPopularPackages.eq_def, if_neg hcond]

/-- Witness for claim C5: a stored digest from time 0 is served
unchanged at time 1 with zero searches; an empty cache at time 7 is
refilled with the recomputed digest stamped 7 after 5 searches. -/
theorem C5_popular_cache_witness :
    getPopularPackages freshState 1 netDown =
      { text := buildDigest 0 [], state := freshState, searchCalls := 0 } ∧
    getPopularPackages { popularPackagesCache := none, popularPackagesCacheTime := 0 }
        7 netDown =
      { text := recomputePopularDigest 7 netDown
        state := { popularPackagesCache := some (recomputePopularDigest 7 netDown)
                   popularPackagesCacheTime := 7 }
        searchCalls := 5 } := by
  constructor
  · exact (C5_popular_cache freshState 1 netDown).1 (buildDigest 0 []) 0 []
      rfl rfl (by decide)
  · have h := (C5_popular_cache
      { popularPackagesCache := none, popularPackagesCacheTime := 0 }
      7 netDown).2 (Or.inl rfl)
    have h5 : (popularQueries.take 5).length = 5 := by decide
    rw [h5] at h
    exact h

/-! ## Claim C6 -/

/-- Claim C6: `downloadAndExtract` is idempotent per package name — two
successive successful runs leave the sandbox for that name holding
exactly the second archive's stripped entries, with no residue from the
first run, and touch no other sandbox. -/
theorem C6_extract_idempotent (tmp : TempDir) (packageName : String)
    (entries1 entries2 : List (List String)) :
    downloadAndExtract (downloadAndExtract tmp packageName entries1)
        packageName entries2 =
      downloadAndExtract tmp packageName entries2 ∧
    downloadAndExtract (downloadAndExtract tmp packageName entries1)
        packageName entries2 (sanitizedName packageName) =
      some (extractArchive entries2) := by
  constructor
  · funext k
    by_cases hk : k = sanitizedName packageName <;>
      simp [downloadAndExtract, hk]
  · simp [downloadAndExtract]

/-! ## Claim C7 -/

/-- Claim C7: `getSpecificFile` fails not-found exactly when no entry
exists at the resolved path; on a directory it fails not-a-file (never
not-found); on a read failure it fails with the read error; on a
readable file it returns the content. -/
theorem C7_specific_file_errors (fsys : FileSys) (extractedPath : List String)
    (filePath : String) :
    (getSpecificFile fsys extractedPath filePath =
        Except.error GetFileError.notFound ↔
      fsys (joinPath extractedPath filePath) = none) ∧
    (fsys (joinPath extractedPath filePath) = some FsNode.dirNode →
      getSpecificFile fsys extractedPath filePath =
          Except.error GetFileError.notAFile ∧
      getSpecificFile fsys extractedPath filePath ≠
          Except.error GetFileError.notFound) ∧
    (fsys (joinPath extractedPath filePath) = some (FsNode.fileNode none) →
      getSpecificFile fsys extractedPath filePath =
        Except.error GetFileError.readError) ∧
    (∀ c, fsys (joinPath extractedPath filePath) =
        some (FsNode.fileNode (some c)) →
      getSpecificFile fsys extractedPath filePath = Except.ok c) := by
  cases hnode : fsys (joinPath extractedPath filePath) with
  | none => simp [getSpecificFile, hnode]
  | some node =>
      cases node with
      | dirNode => simp [getSpecificFile, hnode]
      | fileNode c0 =>
          cases c0 with
          | none => simp [getSpecificFile, hnode]
          | some content => simp [getSpecificFile, hnode]

/-- Witness for claim C7: a path resolving to a directory fails
not-a-file, not not-found. -/
theorem C7_specific_file_errors_witness :
    getSpecificFile fsysWithDir ["r"] "d" = Except.error GetFileError.notAFile ∧
    getSpecificFile fsysWithDir ["r"] "d" ≠ Except.error GetFileError.notFound :=
  (C7_specific_file_errors fsysWithDir ["r"] "d").2.1 (by decide)

/-! ## Claim C8 -/

/-- Claim C8, as stated, is false in one field: a missing description
is rendered as the marker `No description available`, not as the
`Not specified` marker used for the other optional fields. -/
theorem C8_counterexample :
    pkgBare.description = none ∧
    ∃ r, getPackageInfoRecord pkgBare = some r ∧
      r.description = "No description available" ∧
      r.description ≠ "Not specified" := by
  refine ⟨rfl, ⟨_, rfl, rfl, by decide⟩⟩

/-- Claim C8 (amended): `getPackageInfo` normalizes every missing
optional field to an explicit marker — `No description available` for
the description and `Not specified` for main, types, author, license,
homepage and repository — and reduces the dependency and
devDependency records to their key counts. -/
theorem C8_info_normalization (p : RawPackageInfo) (d : Dist)
    (hd : p.dist = some d) :
    ∃ r, getPackageInfoRecord p = some r ∧
      (p.description = none → r.description = "No description available") ∧
      (p.main = none → r.main = "Not specified") ∧
      (p.types = none → r.types = "Not specified") ∧
      (p.author = none → r.author = Author.str "Not specified") ∧
      (p.license = none → r.license = "Not specified") ∧
      (p.homepage = none → r.homepage = "Not specified") ∧
      (p.repositoryUrl = none → r.repository = "Not specified") ∧
      r.dependencies = (p.dependencies.getD []).length ∧
      r.devDependencies = (p.devDependencies.getD []).length := by
  refine ⟨{ name := p.name
            version := p.version
            description := jsOrStr p.description "No description available"
            main := jsOrStr p.main "Not specified"
            types := jsOrStr p.types "Not specified"
            keywords := p.keywords.getD []
            author := normAuthor p.author
            license := jsOrStr p.license "Not specified"
            homepage := jsOrStr p.homepage "Not specified"
            repository := jsOrStr p.repositoryUrl "Not specified"
            tarball := d.tarball
            shasum := d.shasum
            dependencies := (p.dependencies.getD []).length
            devDependencies := (p.devDependencies.getD []).length },
      ?_, ?_, ?_, ?_, ?_, ?_, ?_, ?_, rfl, rfl⟩
  · rw [getPackageInfoRecord.eq_def, hd]
  · intro h; rw [h]; rfl
  · intro h; rw [h]; rfl
  · intro h; rw [h]; rfl
  · intro h; rw [h]; rfl
  · intro h; rw [h]; rfl
  · intro h; rw [h]; rfl
  · intro h; rw [h]; rfl

/-- Witness for the amended claim C8 at the bare package record. -/
theorem C8_info_normalization_witness :
    ∃ r, getPackageInfoRecord pkgBare = some r ∧
      r.description = "No description available" ∧
      r.main = "Not specified" ∧
      r.dependencies = 0 := by
  obtain ⟨r, hr, hdesc, hmain, _, _, _, _, _, hdeps, _⟩ :=
    C8_info_normalization pkgBare
      { tarball := some "https://registry.npmjs.org/tiny/-/tiny-0.0.1.tgz"
        shasum := some "0123456789abcdef" } rfl
  exact ⟨r, hr, hdesc rfl, hmain rfl, by rw [hdeps]; rfl⟩

/-! ## Claim C9 -/

/-- Claim C9: `getSpecificFile` joins the caller-supplied relative path
onto the sandbox root with no containment check, so a path with
parent-directory segments resolves outside the sandbox root, and a
readable file there has its content returned instead of the operation
failing. -/
theorem C9_path_escape :
    ∃ (extractedPath : List String) (filePath : String) (fsys : FileSys)
      (c : String),
      ".." ∈ splitOnSlash filePath ∧
      (joinPath extractedPath filePath).take extractedPath.length ≠
        extractedPath ∧
      fsys (joinPath extractedPath filePath) =
        some (FsNode.fileNode (some c)) ∧
      getSpecificFile fsys extractedPath filePath = Except.ok c := by
  refine ⟨["tmp", "pkg_x"], "../outside.txt", fsysEscape, "secret",
    ?_, ?_, ?_, ?_⟩
  · decide
  · decide
  · decide
  · rfl

/-! ## Claim C10 -/

/-- Claim C10: the sanitizing map replaces only the at-sign and the
separator with underscores and is not injective — the distinct names
`@foo/bar` and `_foo_bar` share a sandbox directory, so extracting the
second recursively deletes the first's files and leaves only the
second archive's contents under their common key. -/
theorem C10_sanitized_name_collision (tmp : TempDir)
    (entries1 entries2 : List (List String)) :
    sanitizedName "@foo/bar" = sanitizedName "_foo_bar" ∧
    "@foo/bar" ≠ "_foo_bar" ∧
    downloadAndExtract (downloadAndExtract tmp "@foo/bar" entries1)
        "_foo_bar" entries2 (sanitizedName "@foo/bar") =
      some (extractArchive entries2) := by
  have hkey : sanitizedName "@foo/bar" = sanitizedName "_foo_bar" := by decide
  refine ⟨hkey, by decide, ?_⟩
  simp only [downloadAndExtract]
  rw [if_pos hkey]
